import Mathlib

/-!
# Verification of the CSS selector builder of `src/05-objects-tasks.js`

This file gives a shallow embedding of the `CssSelectorBuilder` class and the
`cssSelectorBuilder` facade object of the repository, translated statement by
statement from the JavaScript source, and proves the specified properties
about them.

Modelling conventions:
* A JavaScript entry of the `selectors` array is either a fragment object
  `{ type, value }`, the type-less seed object `{ value }` produced by the
  facade's `combine`, or a plain number (the `pseudoClass` method pushes the
  return value of an inner `push`, which is the new array length).
* `this.avalableSelectorsMap[selector.type]` evaluates to `undefined` when the
  seed has no `type` field; we model the `avalableSelectors` field as an
  `Option (List SelKind)`, `none` standing for `undefined`.  Calling
  `.includes` on `undefined` raises a `TypeError`.
* Each method of the class mutates `this` and either returns it or throws, so
  a method is modelled as a function returning the post-call state together
  with an optional error (`none` = normal return of `this`).
-/

/-- The six fragment kinds of the builder (the values of the `type` field). -/
inductive SelKind where
  | element
  | id
  | «class»
  | attr
  | pseudoClass
  | pseudoElement
deriving DecidableEq, Repr, Fintype

/-- One entry of the `selectors` array: a `{ type, value }` fragment object,
the type-less `{ value }` seed pushed by the facade's `combine`, or a plain
number (pushed by the buggy double `push` inside `pseudoClass`). -/
inductive Entry where
  | frag (type : SelKind) (value : String)
  | comp (value : String)
  | num (n : Nat)
deriving DecidableEq, Repr

/-- The `type` field of an entry (`none` models `undefined`). -/
def Entry.typeField : Entry → Option SelKind
  | .frag t _ => some t
  | .comp _ => none
  | .num _ => none

/-- The `value` field of an entry, as it is rendered by
`Array.prototype.join('')` (a `number` entry has an `undefined` `value`, which
`join` renders as the empty string). -/
def Entry.text : Entry → String
  | .frag _ v => v
  | .comp v => v
  | .num _ => ""

/-- The errors a builder method can raise: the two `Error`s thrown explicitly
by the source, and the `TypeError` raised by reading `.includes` of
`undefined`. -/
inductive BuilderError where
  | duplicateSingleton
  | orderViolation
  | typeError
deriving DecidableEq, Repr

/-- `this.avalableSelectorsMap`, the object literal of the constructor. -/
def avalableSelectorsMap : SelKind → List SelKind
  | .element => [.element, .id, .«class», .attr, .pseudoClass, .pseudoElement]
  | .id => [.id, .«class», .attr, .pseudoClass, .pseudoElement]
  | .«class» => [.«class», .attr, .pseudoClass, .pseudoElement]
  | .attr => [.attr, .pseudoClass, .pseudoElement]
  | .pseudoClass => [.pseudoClass, .pseudoElement]
  | .pseudoElement => []

/-- The state of a `CssSelectorBuilder` instance: the `selectors` array and
the `avalableSelectors` field (`none` models `undefined`). -/
structure CssSelectorBuilder where
  selectors : List Entry
  avalableSelectors : Option (List SelKind)
deriving DecidableEq, Repr

/-- The constructor `new CssSelectorBuilder(selector)`: `this.selectors`
starts as `[selector]` and `this.avalableSelectors` is the map looked up at
`selector.type` (which is `undefined` when the seed has no `type`). -/
def CssSelectorBuilder.make (seed : Entry) : CssSelectorBuilder where
  selectors := [seed]
  avalableSelectors := seed.typeField.map avalableSelectorsMap

/-- `this.selectors.find(({ type }) => type === k)` is truthy: the found value
is always a fragment object, hence truthy. -/
def CssSelectorBuilder.hasType (b : CssSelectorBuilder) (k : SelKind) : Bool :=
  b.selectors.any fun e => e.typeField = some k

/-- The `element(value)` method.  Note that it never updates
`avalableSelectors`. -/
def CssSelectorBuilder.element (b : CssSelectorBuilder) (value : String) :
    CssSelectorBuilder × Option BuilderError :=
  if b.hasType .element then (b, some .duplicateSingleton)
  else
    match b.avalableSelectors with
    | none => (b, some .typeError)
    | some avail =>
        if avail.contains .element then
          ({ b with selectors := b.selectors ++ [.frag .element value] }, none)
        else (b, some .orderViolation)

/-- The `id(value)` method. -/
def CssSelectorBuilder.id (b : CssSelectorBuilder) (value : String) :
    CssSelectorBuilder × Option BuilderError :=
  if b.hasType .id then (b, some .duplicateSingleton)
  else
    match b.avalableSelectors with
    | none => (b, some .typeError)
    | some avail =>
        if avail.contains .id then
          ({ selectors := b.selectors ++ [.frag .id ("#" ++ value)],
             avalableSelectors := some (avalableSelectorsMap .id) }, none)
        else (b, some .orderViolation)

/-- The `class(value)` method. -/
def CssSelectorBuilder.«class» (b : CssSelectorBuilder) (value : String) :
    CssSelectorBuilder × Option BuilderError :=
  match b.avalableSelectors with
  | none => (b, some .typeError)
  | some avail =>
      if avail.contains .«class» then
        ({ selectors := b.selectors ++ [.frag .«class» ("." ++ value)],
           avalableSelectors := some (avalableSelectorsMap .«class») }, none)
      else (b, some .orderViolation)

/-- The `attr(value)` method. -/
def CssSelectorBuilder.attr (b : CssSelectorBuilder) (value : String) :
    CssSelectorBuilder × Option BuilderError :=
  match b.avalableSelectors with
  | none => (b, some .typeError)
  | some avail =>
      if avail.contains .attr then
        ({ selectors := b.selectors ++ [.frag .attr ("[" ++ value ++ "]")],
           avalableSelectors := some (avalableSelectorsMap .attr) }, none)
      else (b, some .orderViolation)

/-- The `pseudoClass(value)` method.  The source reads
`this.selectors.push(this.selectors.push({ type: 'pseudoClass', ... }))`: the
inner `push` appends the fragment and returns the new array length, which the
outer `push` then appends as a plain number. -/
def CssSelectorBuilder.pseudoClass (b : CssSelectorBuilder) (value : String) :
    CssSelectorBuilder × Option BuilderError :=
  match b.avalableSelectors with
  | none => (b, some .typeError)
  | some avail =>
      if avail.contains .pseudoClass then
        ({ selectors := b.selectors ++
             [.frag .pseudoClass (":" ++ value), .num (b.selectors.length + 1)],
           avalableSelectors := some (avalableSelectorsMap .pseudoClass) }, none)
      else (b, some .orderViolation)

/-- The `pseudoElement(value)` method (it sets `avalableSelectors` to the
literal empty array). -/
def CssSelectorBuilder.pseudoElement (b : CssSelectorBuilder) (value : String) :
    CssSelectorBuilder × Option BuilderError :=
  if b.hasType .pseudoElement then (b, some .duplicateSingleton)
  else
    match b.avalableSelectors with
    | none => (b, some .typeError)
    | some avail =>
        if avail.contains .pseudoElement then
          ({ selectors := b.selectors ++ [.frag .pseudoElement ("::" ++ value)],
             avalableSelectors := some [] }, none)
        else (b, some .orderViolation)

/-- `Array.prototype.join('')` over a list of rendered values. -/
def joinAll : List String → String
  | [] => ""
  | s :: rest => s ++ joinAll rest

/-- The `stringify()` method:
`this.selectors.map(({ value }) => value).join('')`. -/
def CssSelectorBuilder.stringify (b : CssSelectorBuilder) : String :=
  joinAll (b.selectors.map Entry.text)

namespace cssSelectorBuilder

/-- Facade `element(value)`. -/
def element (value : String) : CssSelectorBuilder :=
  .make (.frag .element value)

/-- Facade `id(value)`. -/
def id (value : String) : CssSelectorBuilder :=
  .make (.frag .id ("#" ++ value))

/-- Facade `class(value)`. -/
def «class» (value : String) : CssSelectorBuilder :=
  .make (.frag .«class» ("." ++ value))

/-- Facade `attr(value)`. -/
def attr (value : String) : CssSelectorBuilder :=
  .make (.frag .attr ("[" ++ value ++ "]"))

/-- Facade `pseudoClass(value)`. -/
def pseudoClass (value : String) : CssSelectorBuilder :=
  .make (.frag .pseudoClass (":" ++ value))

/-- Facade `pseudoElement(value)`. -/
def pseudoElement (value : String) : CssSelectorBuilder :=
  .make (.frag .pseudoElement ("::" ++ value))

/-- Facade `combine(selector1, combinator, selector2)`: a new builder seeded
with the type-less object holding the template-literal string. -/
def combine (selector1 : CssSelectorBuilder) (combinator : String)
    (selector2 : CssSelectorBuilder) : CssSelectorBuilder :=
  .make (.comp (selector1.stringify ++ " " ++ combinator ++ " " ++ selector2.stringify))

end cssSelectorBuilder

/-- The property keys of the `cssSelectorBuilder` object literal, in source
order (the `stringify` member is commented out in the source). -/
def cssSelectorBuilderKeys : List String :=
  ["element", "id", "class", "attr", "pseudoClass", "pseudoElement", "combine"]

/-! ## Call sequences -/

/-- One fragment call, identified by the operation invoked and its argument. -/
inductive FragCall where
  | element (v : String)
  | id (v : String)
  | «class» (v : String)
  | attr (v : String)
  | pseudoClass (v : String)
  | pseudoElement (v : String)
deriving DecidableEq, Repr

/-- The kind of fragment a call requests. -/
def FragCall.kind : FragCall → SelKind
  | .element _ => .element
  | .id _ => .id
  | .«class» _ => .«class»
  | .attr _ => .attr
  | .pseudoClass _ => .pseudoClass
  | .pseudoElement _ => .pseudoElement

/-- The text the fragment of a call renders to. -/
def FragCall.render : FragCall → String
  | .element v => v
  | .id v => "#" ++ v
  | .«class» v => "." ++ v
  | .attr v => "[" ++ v ++ "]"
  | .pseudoClass v => ":" ++ v
  | .pseudoElement v => "::" ++ v

/-- The builder the facade returns for a first (seeding) call. -/
def seedBuilder : FragCall → CssSelectorBuilder
  | .element v => cssSelectorBuilder.element v
  | .id v => cssSelectorBuilder.id v
  | .«class» v => cssSelectorBuilder.«class» v
  | .attr v => cssSelectorBuilder.attr v
  | .pseudoClass v => cssSelectorBuilder.pseudoClass v
  | .pseudoElement v => cssSelectorBuilder.pseudoElement v

/-- Dispatch a method call on a builder, returning the post-call state and
the optional error. -/
def applyCall (b : CssSelectorBuilder) : FragCall → CssSelectorBuilder × Option BuilderError
  | .element v => b.element v
  | .id v => b.id v
  | .«class» v => b.«class» v
  | .attr v => b.attr v
  | .pseudoClass v => b.pseudoClass v
  | .pseudoElement v => b.pseudoElement v

/-- A method call as a fallible step: a thrown error aborts the chain. -/
def step (b : CssSelectorBuilder) (c : FragCall) : Except BuilderError CssSelectorBuilder :=
  match applyCall b c with
  | (b', none) => .ok b'
  | (_, some e) => .error e

/-- Run a chain of method calls, stopping at the first error. -/
def runChain (b : CssSelectorBuilder) : List FragCall → Except BuilderError CssSelectorBuilder
  | [] => .ok b
  | c :: cs =>
      match step b c with
      | .ok b' => runChain b' cs
      | .error e => .error e

/-- Run a full call sequence: the first call goes through the facade, the
rest are chained method calls. -/
def runCalls (first : FragCall) (rest : List FragCall) :
    Except BuilderError CssSelectorBuilder :=
  runChain (seedBuilder first) rest

/-- The entries a successful method call appends to the `selectors` array of
builder `b` (the `pseudoClass` method appends the fragment and then the result
of the inner `push`, the new array length). -/
def FragCall.entries (b : CssSelectorBuilder) : FragCall → List Entry
  | .element v => [.frag .element v]
  | .id v => [.frag .id ("#" ++ v)]
  | .«class» v => [.frag .«class» ("." ++ v)]
  | .attr v => [.frag .attr ("[" ++ v ++ "]")]
  | .pseudoClass v => [.frag .pseudoClass (":" ++ v), .num (b.selectors.length + 1)]
  | .pseudoElement v => [.frag .pseudoElement ("::" ++ v)]

/-- The fragment sequence of a builder: the `{ type, value }` objects of its
`selectors` array, in order. -/
def fragmentsOf (b : CssSelectorBuilder) : List (SelKind × String) :=
  b.selectors.filterMap fun e =>
    match e with
    | .frag t v => some (t, v)
    | _ => none

/-- How many fragments of kind `k` a builder holds. -/
def countType (b : CssSelectorBuilder) (k : SelKind) : Nat :=
  b.selectors.countP fun e => e.typeField = some k

/-- The position of a kind in the fixed stage order
`element, id, class, attribute, pseudo-class, pseudo-element`. -/
def stageIdx : SelKind → Nat
  | .element => 0
  | .id => 1
  | .«class» => 2
  | .attr => 3
  | .pseudoClass => 4
  | .pseudoElement => 5

/-- Whether a kind is a singleton stage (may appear at most once). -/
def SelKind.isSingleton : SelKind → Bool
  | .element => true
  | .id => true
  | .pseudoElement => true
  | _ => false

/-- Modelled from the spec: how an accepted call moves the stage pointer —
the pointer advances to the called kind's position, and `element`, `id`,
`pseudoElement` advance past themselves since they are singleton stages. -/
def specAdvance (_p : Nat) (k : SelKind) : Nat :=
  if k.isSingleton then stageIdx k + 1 else stageIdx k

/-- Modelled from the spec: the current stage pointer of a builder reached by
the seeding factory call `first` followed by the accepted calls `rest` — it
starts at the seeded fragment's own stage and is advanced by each call. -/
def specStagePointer (first : FragCall) (rest : List FragCall) : Nat :=
  (rest.map FragCall.kind).foldl specAdvance (stageIdx first.kind)

/-- The builders reachable through the public API without an error being
raised: a facade seed, an error-free method call on a reachable builder, or a
facade `combine` of two reachable builders. -/
inductive Reachable : CssSelectorBuilder → Prop where
  | seed (c : FragCall) : Reachable (seedBuilder c)
  | call {b b' : CssSelectorBuilder} {c : FragCall} :
      Reachable b → step b c = .ok b' → Reachable b'
  | comb {a b : CssSelectorBuilder} (c : String) :
      Reachable a → Reachable b → Reachable (cssSelectorBuilder.combine a c b)

/-- The relation between a builder's concrete state and the spec's stage
pointer `p`: `avalableSelectors` is defined, every kind strictly before `p`
is either absent from the allowed set or is a singleton kind the builder
already holds, and an `element` kind in the allowed set implies an `element`
fragment is already present (the `element` method never refreshes the allowed
set, so this pins down when it could succeed). -/
def StageInv (b : CssSelectorBuilder) (p : Nat) : Prop :=
  ∃ avail, b.avalableSelectors = some avail ∧
    (∀ k, stageIdx k < p →
      (k.isSingleton = true ∧ b.hasType k = true) ∨ avail.contains k = false) ∧
    (b.hasType .element = true ∨ avail.contains .element = false)

/-- A heap of builder objects, indexed by position: used to express that later
mutation of a builder does not touch other builders. -/
def applyAt (st : List CssSelectorBuilder) (i : Nat) (c : FragCall) :
    List CssSelectorBuilder × Option BuilderError :=
  match st[i]? with
  | some b => (st.set i (applyCall b c).1, (applyCall b c).2)
  | none => (st, some .typeError)

/-- `stringify()` of the builder stored at position `i`. -/
def stringifyAt (st : List CssSelectorBuilder) (i : Nat) : Option String :=
  (st[i]?).map CssSelectorBuilder.stringify

/-! ## Basic lemmas -/

theorem joinAll_append (l₁ l₂ : List String) :
    joinAll (l₁ ++ l₂) = joinAll l₁ ++ joinAll l₂ := by
  induction l₁ with
  | nil => simp [joinAll, String.empty_append]
  | cons s rest ih => simp [joinAll, ih, String.append_assoc]

theorem entries_text (b : CssSelectorBuilder) (c : FragCall) :
    joinAll ((c.entries b).map Entry.text) = c.render := by
  cases c <;>
    simp [FragCall.entries, FragCall.render, Entry.text, joinAll, String.append_empty]

theorem seedBuilder_stringify (c : FragCall) : (seedBuilder c).stringify = c.render := by
  cases c <;>
    simp [seedBuilder, cssSelectorBuilder.element, cssSelectorBuilder.id,
      cssSelectorBuilder.«class», cssSelectorBuilder.attr, cssSelectorBuilder.pseudoClass,
      cssSelectorBuilder.pseudoElement, CssSelectorBuilder.make, CssSelectorBuilder.stringify,
      FragCall.render, Entry.text, joinAll, String.append_empty]

/-! ## Inversion lemmas for error-free method calls -/

theorem element_ok {b b' : CssSelectorBuilder} {v : String}
    (h : b.element v = (b', none)) :
    b.hasType .element = false ∧
      ∃ avail, b.avalableSelectors = some avail ∧ avail.contains .element = true ∧
        b' = { b with selectors := b.selectors ++ [.frag .element v] } := by
  obtain ⟨sel, av⟩ := b
  by_cases hd : CssSelectorBuilder.hasType ⟨sel, av⟩ .element
  · simp [CssSelectorBuilder.element, hd] at h
  · cases av with
    | none => simp [CssSelectorBuilder.element, hd] at h
    | some avail =>
        by_cases hc : SelKind.element ∈ avail
        · simp [CssSelectorBuilder.element, hd, hc, Prod.mk.injEq] at h
          exact ⟨by simpa using hd, avail, rfl, by simpa using hc, h.symm⟩
        · simp [CssSelectorBuilder.element, hd, hc] at h

theorem id_ok {b b' : CssSelectorBuilder} {v : String}
    (h : b.id v = (b', none)) :
    b.hasType .id = false ∧
      ∃ avail, b.avalableSelectors = some avail ∧ avail.contains .id = true ∧
        b' = { selectors := b.selectors ++ [.frag .id ("#" ++ v)],
               avalableSelectors := some (avalableSelectorsMap .id) } := by
  obtain ⟨sel, av⟩ := b
  by_cases hd : CssSelectorBuilder.hasType ⟨sel, av⟩ .id
  · simp [CssSelectorBuilder.id, hd] at h
  · cases av with
    | none => simp [CssSelectorBuilder.id, hd] at h
    | some avail =>
        by_cases hc : SelKind.id ∈ avail
        · simp [CssSelectorBuilder.id, hd, hc, Prod.mk.injEq] at h
          exact ⟨by simpa using hd, avail, rfl, by simpa using hc, h.symm⟩
        · simp [CssSelectorBuilder.id, hd, hc] at h

theorem class_ok {b b' : CssSelectorBuilder} {v : String}
    (h : b.«class» v = (b', none)) :
    ∃ avail, b.avalableSelectors = some avail ∧ avail.contains .«class» = true ∧
      b' = { selectors := b.selectors ++ [.frag .«class» ("." ++ v)],
             avalableSelectors := some (avalableSelectorsMap .«class») } := by
  obtain ⟨sel, av⟩ := b
  cases av with
  | none => simp [CssSelectorBuilder.«class»] at h
  | some avail =>
      by_cases hc : SelKind.«class» ∈ avail
      · simp [CssSelectorBuilder.«class», hc, Prod.mk.injEq] at h
        exact ⟨avail, rfl, by simpa using hc, h.symm⟩
      · simp [CssSelectorBuilder.«class», hc] at h

theorem attr_ok {b b' : CssSelectorBuilder} {v : String}
    (h : b.attr v = (b', none)) :
    ∃ avail, b.avalableSelectors = some avail ∧ avail.contains .attr = true ∧
      b' = { selectors := b.selectors ++ [.frag .attr ("[" ++ v ++ "]")],
             avalableSelectors := some (avalableSelectorsMap .attr) } := by
  obtain ⟨sel, av⟩ := b
  cases av with
  | none => simp [CssSelectorBuilder.attr] at h
  | some avail =>
      by_cases hc : SelKind.attr ∈ avail
      · simp [CssSelectorBuilder.attr, hc, Prod.mk.injEq] at h
        exact ⟨avail, rfl, by simpa using hc, h.symm⟩
      · simp [CssSelectorBuilder.attr, hc] at h

theorem pseudoClass_ok {b b' : CssSelectorBuilder} {v : String}
    (h : b.pseudoClass v = (b', none)) :
    ∃ avail, b.avalableSelectors = some avail ∧ avail.contains .pseudoClass = true ∧
      b' = { selectors := b.selectors ++
               [.frag .pseudoClass (":" ++ v), .num (b.selectors.length + 1)],
             avalableSelectors := some (avalableSelectorsMap .pseudoClass) } := by
  obtain ⟨sel, av⟩ := b
  cases av with
  | none => simp [CssSelectorBuilder.pseudoClass] at h
  | some avail =>
      by_cases hc : SelKind.pseudoClass ∈ avail
      · simp [CssSelectorBuilder.pseudoClass, hc, Prod.mk.injEq] at h
        exact ⟨avail, rfl, by simpa using hc, h.symm⟩
      · simp [CssSelectorBuilder.pseudoClass, hc] at h

theorem pseudoElement_ok {b b' : CssSelectorBuilder} {v : String}
    (h : b.pseudoElement v = (b', none)) :
    b.hasType .pseudoElement = false ∧
      ∃ avail, b.avalableSelectors = some avail ∧ avail.contains .pseudoElement = true ∧
        b' = { selectors := b.selectors ++ [.frag .pseudoElement ("::" ++ v)],
               avalableSelectors := some [] } := by
  obtain ⟨sel, av⟩ := b
  by_cases hd : CssSelectorBuilder.hasType ⟨sel, av⟩ .pseudoElement
  · simp [CssSelectorBuilder.pseudoElement, hd] at h
  · cases av with
    | none => simp [CssSelectorBuilder.pseudoElement, hd] at h
    | some avail =>
        by_cases hc : SelKind.pseudoElement ∈ avail
        · simp [CssSelectorBuilder.pseudoElement, hd, hc, Prod.mk.injEq] at h
          exact ⟨by simpa using hd, avail, rfl, by simpa using hc, h.symm⟩
        · simp [CssSelectorBuilder.pseudoElement, hd, hc] at h

theorem step_ok_iff {b b' : CssSelectorBuilder} {c : FragCall} :
    step b c = .ok b' ↔ applyCall b c = (b', none) := by
  rcases happ : applyCall b c with ⟨b'', e⟩
  cases e <;> simp [step, happ]

theorem step_selectors {b b' : CssSelectorBuilder} {c : FragCall}
    (h : step b c = .ok b') : b'.selectors = b.selectors ++ c.entries b := by
  rw [step_ok_iff] at h
  cases c with
  | element v => obtain ⟨-, -, -, -, rfl⟩ := element_ok h; rfl
  | id v => obtain ⟨-, -, -, -, rfl⟩ := id_ok h; rfl
  | «class» v => obtain ⟨-, -, -, rfl⟩ := class_ok h; rfl
  | attr v => obtain ⟨-, -, -, rfl⟩ := attr_ok h; rfl
  | pseudoClass v => obtain ⟨-, -, -, rfl⟩ := pseudoClass_ok h; rfl
  | pseudoElement v => obtain ⟨-, -, -, -, rfl⟩ := pseudoElement_ok h; rfl

theorem step_stringify {b b' : CssSelectorBuilder} {c : FragCall}
    (h : step b c = .ok b') : b'.stringify = b.stringify ++ c.render := by
  rw [CssSelectorBuilder.stringify, step_selectors h, List.map_append, joinAll_append,
    entries_text]
  rfl

theorem step_hasType_mono {b b' : CssSelectorBuilder} {c : FragCall} {k : SelKind}
    (h : step b c = .ok b') (hk : b.hasType k = true) : b'.hasType k = true := by
  rw [CssSelectorBuilder.hasType, step_selectors h, List.any_append]
  rw [CssSelectorBuilder.hasType] at hk
  simp [hk]

theorem runChain_stringify {cs : List FragCall} {b b' : CssSelectorBuilder}
    (h : runChain b cs = .ok b') :
    b'.stringify = b.stringify ++ joinAll (cs.map FragCall.render) := by
  induction cs generalizing b with
  | nil =>
      simp only [runChain] at h
      cases h
      simp [joinAll, String.append_empty]
  | cons c rest ih =>
      rcases hs : step b c with e | b1
      · simp [runChain, hs] at h
      · simp only [runChain, hs] at h
        rw [ih h, step_stringify hs]
        simp [List.map_cons, joinAll, String.append_assoc]

theorem runChain_hasType_mono {cs : List FragCall} {b b' : CssSelectorBuilder} {k : SelKind}
    (h : runChain b cs = .ok b') (hk : b.hasType k = true) : b'.hasType k = true := by
  induction cs generalizing b with
  | nil => simp only [runChain] at h; cases h; exact hk
  | cons c rest ih =>
      rcases hs : step b c with e | b1
      · simp [runChain, hs] at h
      · simp only [runChain, hs] at h
        exact ih h (step_hasType_mono hs hk)

/-! ## Claim C1 -/

/-- C1: for every sequence of fragment calls that raises no error, `stringify()`
returns exactly the concatenation of each fragment's rendered text in call
order with no separators (element → raw value, id → `#value`, class →
`.value`, attribute → `[value]`, pseudo-class → `:value`, pseudo-element →
`::value`); in particular `element('a')`, `attr('href$=".png"')`,
`pseudoClass('focus')` stringifies to `a[href$=".png"]:focus`, and
`id('main')`, `class('container')`, `class('editable')` stringifies to
`#main.container.editable`. -/
theorem stringify_concatenates_fragments :
    (∀ (first : FragCall) (rest : List FragCall) (b : CssSelectorBuilder),
        runCalls first rest = .ok b →
        b.stringify = first.render ++ joinAll (rest.map FragCall.render)) ∧
    (runCalls (.element "a") [.attr "href$=\".png\"", .pseudoClass "focus"]).map
        CssSelectorBuilder.stringify = .ok "a[href$=\".png\"]:focus" ∧
    (runCalls (.id "main") [.«class» "container", .«class» "editable"]).map
        CssSelectorBuilder.stringify = .ok "#main.container.editable" := by
  refine ⟨?_, rfl, rfl⟩
  intro first rest b h
  rw [runCalls] at h
  rw [runChain_stringify h, seedBuilder_stringify]

/-- Witness for C1: the general statement applied to the call sequence
`element('a')`, `attr('href$=".png"')`, `pseudoClass('focus')`. -/
theorem stringify_concatenates_fragments_witness :
    (((cssSelectorBuilder.element "a").attr "href$=\".png\"").1.pseudoClass "focus").1.stringify
      = (FragCall.element "a").render ++
        joinAll ([FragCall.attr "href$=\".png\"", FragCall.pseudoClass "focus"].map
          FragCall.render) :=
  stringify_concatenates_fragments.1 (.element "a")
    [.attr "href$=\".png\"", .pseudoClass "focus"] _ rfl

/-! ## Claim C2 -/

/-- C2: a singleton-stage operation (`element`, `id`, `pseudoElement`) on a
builder that already contains a fragment of the same kind fails with the
duplicate-singleton error, the builder being left unchanged; in particular
after any error-free chain seeded by `element(...)`, a further `element(...)`
always fails with the duplicate-singleton error — the duplicate check runs
before the order check, so the duplicate error takes precedence. -/
theorem duplicate_singleton_error :
    (∀ (b : CssSelectorBuilder) (v : String),
        (b.hasType .element = true → b.element v = (b, some .duplicateSingleton)) ∧
        (b.hasType .id = true → b.id v = (b, some .duplicateSingleton)) ∧
        (b.hasType .pseudoElement = true →
          b.pseudoElement v = (b, some .duplicateSingleton))) ∧
    (∀ (v₀ : String) (rest : List FragCall) (b : CssSelectorBuilder) (v : String),
        runCalls (.element v₀) rest = .ok b →
        b.element v = (b, some .duplicateSingleton)) := by
  constructor
  · intro b v
    refine ⟨fun h => ?_, fun h => ?_, fun h => ?_⟩ <;>
      simp [CssSelectorBuilder.element, CssSelectorBuilder.id,
        CssSelectorBuilder.pseudoElement, h]
  · intro v₀ rest b v h
    rw [runCalls] at h
    have hseed : (seedBuilder (.element v₀)).hasType .element = true := rfl
    have hb : b.hasType .element = true := runChain_hasType_mono h hseed
    simp [CssSelectorBuilder.element, hb]

/-- Witness for C2: `element('a')` then `class('c')` then `element('b')`
fails with the duplicate-singleton error even though the order is also
violated. -/
theorem duplicate_singleton_error_witness :
    (((cssSelectorBuilder.element "a").«class» "c").1).element "b"
      = ((((cssSelectorBuilder.element "a").«class» "c").1),
          some .duplicateSingleton) :=
  duplicate_singleton_error.2 "a" [.«class» "c"] _ "b" rfl

/-! ## The stage-pointer invariant -/

theorem lt_map_not_contains : ∀ k₀ k : SelKind, stageIdx k < stageIdx k₀ →
    (avalableSelectorsMap k₀).contains k = false := by decide

theorem seed_inv (c : FragCall) : StageInv (seedBuilder c) (stageIdx c.kind) := by
  cases c with
  | element v =>
      exact ⟨avalableSelectorsMap .element, rfl,
        fun k hk => Or.inr (lt_map_not_contains _ _ hk), Or.inl rfl⟩
  | id v =>
      exact ⟨avalableSelectorsMap .id, rfl,
        fun k hk => Or.inr (lt_map_not_contains _ _ hk), Or.inr (by decide)⟩
  | «class» v =>
      exact ⟨avalableSelectorsMap .«class», rfl,
        fun k hk => Or.inr (lt_map_not_contains _ _ hk), Or.inr (by decide)⟩
  | attr v =>
      exact ⟨avalableSelectorsMap .attr, rfl,
        fun k hk => Or.inr (lt_map_not_contains _ _ hk), Or.inr (by decide)⟩
  | pseudoClass v =>
      exact ⟨avalableSelectorsMap .pseudoClass, rfl,
        fun k hk => Or.inr (lt_map_not_contains _ _ hk), Or.inr (by decide)⟩
  | pseudoElement v =>
      exact ⟨avalableSelectorsMap .pseudoElement, rfl,
        fun k hk => Or.inr (lt_map_not_contains _ _ hk), Or.inr (by decide)⟩

theorem step_inv {b b' : CssSelectorBuilder} {c : FragCall} {p : Nat}
    (hinv : StageInv b p) (h : step b c = .ok b') :
    StageInv b' (specAdvance p c.kind) := by
  rw [step_ok_iff] at h
  obtain ⟨avail, hav, hmain, helem⟩ := hinv
  cases c with
  | element v =>
      obtain ⟨hd, avail', hav', hc, rfl⟩ := element_ok h
      rw [hav] at hav'
      cases hav'
      rcases helem with he | he
      · rw [hd] at he; cases he
      · rw [hc] at he; cases he
  | id v =>
      obtain ⟨hd, avail', hav', hc, rfl⟩ := id_ok h
      refine ⟨avalableSelectorsMap .id, rfl, ?_, Or.inr (by decide)⟩
      intro k hk
      cases k with
      | element => exact Or.inr (by decide)
      | id =>
          refine Or.inl ⟨rfl, ?_⟩
          simp [CssSelectorBuilder.hasType, List.any_append, Entry.typeField]
      | «class» => simp [specAdvance, SelKind.isSingleton, FragCall.kind, stageIdx] at hk
      | attr => simp [specAdvance, SelKind.isSingleton, FragCall.kind, stageIdx] at hk
      | pseudoClass => simp [specAdvance, SelKind.isSingleton, FragCall.kind, stageIdx] at hk
      | pseudoElement =>
          simp [specAdvance, SelKind.isSingleton, FragCall.kind, stageIdx] at hk
  | «class» v =>
      obtain ⟨avail', hav', hc, rfl⟩ := class_ok h
      exact ⟨avalableSelectorsMap .«class», rfl,
        fun k hk => Or.inr (lt_map_not_contains _ _ hk), Or.inr (by decide)⟩
  | attr v =>
      obtain ⟨avail', hav', hc, rfl⟩ := attr_ok h
      exact ⟨avalableSelectorsMap .attr, rfl,
        fun k hk => Or.inr (lt_map_not_contains _ _ hk), Or.inr (by decide)⟩
  | pseudoClass v =>
      obtain ⟨avail', hav', hc, rfl⟩ := pseudoClass_ok h
      exact ⟨avalableSelectorsMap .pseudoClass, rfl,
        fun k hk => Or.inr (lt_map_not_contains _ _ hk), Or.inr (by decide)⟩
  | pseudoElement v =>
      obtain ⟨hd, avail', hav', hc, rfl⟩ := pseudoElement_ok h
      exact ⟨[], rfl, fun k hk => Or.inr rfl, Or.inr rfl⟩

theorem runChain_inv {cs : List FragCall} {b b' : CssSelectorBuilder} {p : Nat}
    (hinv : StageInv b p) (h : runChain b cs = .ok b') :
    StageInv b' ((cs.map FragCall.kind).foldl specAdvance p) := by
  induction cs generalizing b p with
  | nil => simp only [runChain] at h; cases h; simpa using hinv
  | cons c rest ih =>
      rcases hs : step b c with e | b1
      · simp [runChain, hs] at h
      · simp only [runChain, hs] at h
        exact ih (step_inv hinv hs) h

/-! ## Claim C3 -/

/-- C3 (amended): after an error-free call sequence, a fragment operation
whose stage lies strictly before the current stage pointer fails — with the
duplicate-singleton error when the operation is a singleton kind the builder
already contains (the duplicate check runs first), and with the
order-violation error otherwise; the builder is left unchanged. -/
theorem order_violation_error :
    ∀ (first : FragCall) (rest : List FragCall) (b : CssSelectorBuilder) (c : FragCall),
      runCalls first rest = .ok b →
      stageIdx c.kind < specStagePointer first rest →
      applyCall b c =
        (b, some (if c.kind.isSingleton && b.hasType c.kind then
            BuilderError.duplicateSingleton
          else BuilderError.orderViolation)) := by
  intro first rest b c h hlt
  rw [runCalls] at h
  obtain ⟨avail, hav, hmain, -⟩ := runChain_inv (seed_inv first) h
  rcases hmain c.kind hlt with ⟨hs, hd⟩ | hnc
  · cases c <;> simp_all [applyCall, CssSelectorBuilder.element, CssSelectorBuilder.id,
      CssSelectorBuilder.pseudoElement, FragCall.kind, SelKind.isSingleton]
  · by_cases hdup : b.hasType c.kind = true
    · cases c <;> simp_all [applyCall, CssSelectorBuilder.element, CssSelectorBuilder.id,
        CssSelectorBuilder.«class», CssSelectorBuilder.attr, CssSelectorBuilder.pseudoClass,
        CssSelectorBuilder.pseudoElement, FragCall.kind, SelKind.isSingleton]
    · cases c <;> simp_all [applyCall, CssSelectorBuilder.element, CssSelectorBuilder.id,
        CssSelectorBuilder.«class», CssSelectorBuilder.attr, CssSelectorBuilder.pseudoClass,
        CssSelectorBuilder.pseudoElement, FragCall.kind, SelKind.isSingleton]

/-- Counterexample to C3 as stated: after `element('a')` then `class('c')`
the element stage lies strictly before the stage pointer, yet `element('b')`
fails with the duplicate-singleton error, not the order-violation error. -/
theorem order_violation_error_counterexample :
    runCalls (.element "a") [.«class» "c"]
      = .ok (((cssSelectorBuilder.element "a").«class» "c").1) ∧
    stageIdx (FragCall.element "b").kind <
      specStagePointer (.element "a") [.«class» "c"] ∧
    applyCall (((cssSelectorBuilder.element "a").«class» "c").1) (.element "b")
      = ((((cssSelectorBuilder.element "a").«class» "c").1),
          some .duplicateSingleton) ∧
    BuilderError.duplicateSingleton ≠ BuilderError.orderViolation :=
  ⟨rfl, by decide, rfl, by decide⟩

/-- Witness for C3 (amended): `class('c')` then `id('x')` fails with the
order-violation error. -/
theorem order_violation_error_witness :
    applyCall (cssSelectorBuilder.«class» "c") (.id "x")
      = (cssSelectorBuilder.«class» "c", some .orderViolation) :=
  order_violation_error (.«class» "c") [] (cssSelectorBuilder.«class» "c") (.id "x")
    rfl (by decide)

/-! ## Claims about `combine` -/

theorem combine_stringify (A B : CssSelectorBuilder) (c : String) :
    (cssSelectorBuilder.combine A c B).stringify
      = A.stringify ++ " " ++ c ++ " " ++ B.stringify := by
  simp [cssSelectorBuilder.combine, CssSelectorBuilder.make, CssSelectorBuilder.stringify,
    Entry.text, Entry.typeField, joinAll, String.append_empty]

/-- C4: `combine(A, c, B)` produces a builder whose `stringify()` is the two
sides' rendered text joined by single spaces around the combinator, for all
builders including combine-built ones; in particular the nested example
renders `table#data ~ tr:nth-of-type(even)   td:nth-of-type(even)` (the
inner `' '` combinator contributes the three-space artifact). -/
theorem combine_joins_with_spaces :
    (∀ (A B : CssSelectorBuilder) (c : String),
        (cssSelectorBuilder.combine A c B).stringify
          = A.stringify ++ " " ++ c ++ " " ++ B.stringify) ∧
    (cssSelectorBuilder.combine
        (((cssSelectorBuilder.element "table").id "data").1) "~"
        (cssSelectorBuilder.combine
          (((cssSelectorBuilder.element "tr").pseudoClass "nth-of-type(even)").1) " "
          (((cssSelectorBuilder.element "td").pseudoClass "nth-of-type(even)").1))).stringify
      = "table#data ~ tr:nth-of-type(even)   td:nth-of-type(even)" :=
  ⟨fun A B c => combine_stringify A B c, rfl⟩

/-- C10: on a combine-built builder, `stringify()` returns the stored
composite string, but every fragment operation fails with the `TypeError`
of reading `.includes` of `undefined` (the seed has no `type`, so
`avalableSelectors` is `undefined`), never with the duplicate or order
errors; the builder is left unchanged. -/
theorem combine_builder_fragment_calls_fail :
    ∀ (A B : CssSelectorBuilder) (c : String) (fc : FragCall),
      (cssSelectorBuilder.combine A c B).avalableSelectors = none ∧
      applyCall (cssSelectorBuilder.combine A c B) fc
        = (cssSelectorBuilder.combine A c B, some .typeError) ∧
      (cssSelectorBuilder.combine A c B).stringify
        = A.stringify ++ " " ++ c ++ " " ++ B.stringify := by
  intro A B c fc
  refine ⟨rfl, ?_, combine_stringify A B c⟩
  cases fc <;> rfl

/-- C5: `combine` captures both operands' rendered text at combine time — in
a heap of builders, a fragment call applied afterwards at the position of
either operand leaves the combined builder's `stringify()` unchanged (it
still returns the string captured when `combine` ran). -/
theorem combine_captures_at_combine_time :
    ∀ (st : List CssSelectorBuilder) (i j m : Nat) (A B : CssSelectorBuilder)
      (c : String) (fc : FragCall),
      st[i]? = some A → st[j]? = some B → (m = i ∨ m = j) →
      stringifyAt ((applyAt (st ++ [cssSelectorBuilder.combine A c B]) m fc).1) st.length
        = stringifyAt (st ++ [cssSelectorBuilder.combine A c B]) st.length ∧
      stringifyAt (st ++ [cssSelectorBuilder.combine A c B]) st.length
        = some (A.stringify ++ " " ++ c ++ " " ++ B.stringify) := by
  intro st i j m A B c fc hi hj hm
  have hX : ∃ X, st[m]? = some X := by
    rcases hm with rfl | rfl
    · exact ⟨A, hi⟩
    · exact ⟨B, hj⟩
  obtain ⟨X, hX⟩ := hX
  obtain ⟨hmlt, -⟩ := List.getElem?_eq_some.mp hX
  have hget : (st ++ [cssSelectorBuilder.combine A c B])[m]? = some X := by
    rw [List.getElem?_append_left hmlt]; exact hX
  have hlast : (st ++ [cssSelectorBuilder.combine A c B])[st.length]?
      = some (cssSelectorBuilder.combine A c B) :=
    List.getElem?_concat_length st _
  constructor
  · simp only [applyAt, hget]
    rw [stringifyAt, stringifyAt, List.getElem?_set_ne (Nat.ne_of_lt hmlt)]
  · rw [stringifyAt, hlast, Option.map_some', combine_stringify]

/-- Witness for C5: mutating the first operand (a `class` call on it) after
combining two builders does not change the combined builder's output. -/
theorem combine_captures_at_combine_time_witness :
    stringifyAt ((applyAt ([cssSelectorBuilder.element "a", cssSelectorBuilder.element "b"]
          ++ [cssSelectorBuilder.combine (cssSelectorBuilder.element "a") "~"
                (cssSelectorBuilder.element "b")]) 0 (.«class» "x")).1) 2
      = stringifyAt ([cssSelectorBuilder.element "a", cssSelectorBuilder.element "b"]
          ++ [cssSelectorBuilder.combine (cssSelectorBuilder.element "a") "~"
                (cssSelectorBuilder.element "b")]) 2 ∧
    stringifyAt ([cssSelectorBuilder.element "a", cssSelectorBuilder.element "b"]
          ++ [cssSelectorBuilder.combine (cssSelectorBuilder.element "a") "~"
                (cssSelectorBuilder.element "b")]) 2
      = some ((cssSelectorBuilder.element "a").stringify ++ " " ++ "~" ++ " "
          ++ (cssSelectorBuilder.element "b").stringify) :=
  combine_captures_at_combine_time
    [cssSelectorBuilder.element "a", cssSelectorBuilder.element "b"] 0 1 0
    (cssSelectorBuilder.element "a") (cssSelectorBuilder.element "b") "~"
    (.«class» "x") rfl rfl (Or.inl rfl)

/-! ## Claim C6 -/

theorem applyCall_error_state {b b' : CssSelectorBuilder} {c : FragCall} {e : BuilderError}
    (h : applyCall b c = (b', some e)) : b' = b := by
  cases c <;>
    · simp only [applyCall, CssSelectorBuilder.element, CssSelectorBuilder.id,
        CssSelectorBuilder.«class», CssSelectorBuilder.attr, CssSelectorBuilder.pseudoClass,
        CssSelectorBuilder.pseudoElement] at h
      repeat' split at h
      all_goals
        first
        | (simp only [Prod.mk.injEq] at h; exact h.1.symm)
        | simp at h

/-- C6: a fragment call that fails with the duplicate-singleton or the
order-violation error leaves the builder exactly as it was — same state, same
`stringify()`, same fragment sequence, same allowed-next-kinds set. -/
theorem failed_call_leaves_state :
    ∀ (b : CssSelectorBuilder) (c : FragCall) (b' : CssSelectorBuilder) (e : BuilderError),
      applyCall b c = (b', some e) →
      e = .duplicateSingleton ∨ e = .orderViolation →
      b' = b ∧ b'.stringify = b.stringify ∧ fragmentsOf b' = fragmentsOf b ∧
        b'.avalableSelectors = b.avalableSelectors := by
  intro b c b' e h _
  have hb : b' = b := applyCall_error_state h
  exact ⟨hb, by rw [hb], by rw [hb], by rw [hb]⟩

/-- Witness for C6: the failed `id('x')` call on a `class('c')`-seeded builder
leaves that builder unchanged. -/
theorem failed_call_leaves_state_witness :
    (applyCall (cssSelectorBuilder.«class» "c") (.id "x")).1 = cssSelectorBuilder.«class» "c" ∧
    (applyCall (cssSelectorBuilder.«class» "c") (.id "x")).1.stringify
      = (cssSelectorBuilder.«class» "c").stringify ∧
    fragmentsOf (applyCall (cssSelectorBuilder.«class» "c") (.id "x")).1
      = fragmentsOf (cssSelectorBuilder.«class» "c") ∧
    (applyCall (cssSelectorBuilder.«class» "c") (.id "x")).1.avalableSelectors
      = (cssSelectorBuilder.«class» "c").avalableSelectors :=
  failed_call_leaves_state (cssSelectorBuilder.«class» "c") (.id "x")
    (cssSelectorBuilder.«class» "c") .orderViolation rfl (Or.inr rfl)

/-! ## Claim C7 -/

theorem runChain_repeat_class :
    ∀ (vs : List String) (b : CssSelectorBuilder),
      b.avalableSelectors = some (avalableSelectorsMap .«class») →
      (runChain b (vs.map FragCall.«class»)).map fragmentsOf
        = .ok (fragmentsOf b ++ vs.map fun w => (SelKind.«class», "." ++ w)) := by
  intro vs
  induction vs with
  | nil => intro b hb; simp [runChain, Except.map]
  | cons w ws ih =>
      intro b hb
      obtain ⟨sel, av⟩ := b
      have hav : av = some (avalableSelectorsMap .«class») := hb
      subst hav
      have hstep : step ⟨sel, some (avalableSelectorsMap .«class»)⟩ (.«class» w)
          = .ok ⟨sel ++ [.frag .«class» ("." ++ w)],
              some (avalableSelectorsMap .«class»)⟩ := rfl
      simp only [List.map_cons, runChain, hstep]
      rw [ih _ rfl]
      simp [fragmentsOf, List.filterMap_append, List.filterMap_cons]

theorem runChain_repeat_attr :
    ∀ (vs : List String) (b : CssSelectorBuilder),
      b.avalableSelectors = some (avalableSelectorsMap .attr) →
      (runChain b (vs.map FragCall.attr)).map fragmentsOf
        = .ok (fragmentsOf b ++ vs.map fun w => (SelKind.attr, "[" ++ w ++ "]")) := by
  intro vs
  induction vs with
  | nil => intro b hb; simp [runChain, Except.map]
  | cons w ws ih =>
      intro b hb
      obtain ⟨sel, av⟩ := b
      have hav : av = some (avalableSelectorsMap .attr) := hb
      subst hav
      have hstep : step ⟨sel, some (avalableSelectorsMap .attr)⟩ (.attr w)
          = .ok ⟨sel ++ [.frag .attr ("[" ++ w ++ "]")],
              some (avalableSelectorsMap .attr)⟩ := rfl
      simp only [List.map_cons, runChain, hstep]
      rw [ih _ rfl]
      simp [fragmentsOf, List.filterMap_append, List.filterMap_cons]

theorem runChain_repeat_pseudoClass :
    ∀ (vs : List String) (b : CssSelectorBuilder),
      b.avalableSelectors = some (avalableSelectorsMap .pseudoClass) →
      (runChain b (vs.map FragCall.pseudoClass)).map fragmentsOf
        = .ok (fragmentsOf b ++ vs.map fun w => (SelKind.pseudoClass, ":" ++ w)) := by
  intro vs
  induction vs with
  | nil => intro b hb; simp [runChain, Except.map]
  | cons w ws ih =>
      intro b hb
      obtain ⟨sel, av⟩ := b
      have hav : av = some (avalableSelectorsMap .pseudoClass) := hb
      subst hav
      have hstep : step ⟨sel, some (avalableSelectorsMap .pseudoClass)⟩ (.pseudoClass w)
          = .ok ⟨sel ++ [.frag .pseudoClass (":" ++ w), .num (sel.length + 1)],
              some (avalableSelectorsMap .pseudoClass)⟩ := rfl
      simp only [List.map_cons, runChain, hstep]
      rw [ih _ rfl]
      simp [fragmentsOf, List.filterMap_append, List.filterMap_cons]

/-- C7: once a `class`, `attr`, or `pseudoClass` call has been accepted,
repeating the same operation any number of times with any values never raises
an error, and each occurrence's fragment is appended in call order. -/
theorem repeatable_calls_never_fail :
    ∀ (b : CssSelectorBuilder) (v : String) (b' : CssSelectorBuilder),
      (b.«class» v = (b', none) → ∀ vs : List String,
        (runChain b' (vs.map FragCall.«class»)).map fragmentsOf
          = .ok (fragmentsOf b' ++ vs.map fun w => (SelKind.«class», "." ++ w))) ∧
      (b.attr v = (b', none) → ∀ vs : List String,
        (runChain b' (vs.map FragCall.attr)).map fragmentsOf
          = .ok (fragmentsOf b' ++ vs.map fun w => (SelKind.attr, "[" ++ w ++ "]"))) ∧
      (b.pseudoClass v = (b', none) → ∀ vs : List String,
        (runChain b' (vs.map FragCall.pseudoClass)).map fragmentsOf
          = .ok (fragmentsOf b' ++ vs.map fun w => (SelKind.pseudoClass, ":" ++ w))) := by
  intro b v b'
  refine ⟨fun h vs => ?_, fun h vs => ?_, fun h vs => ?_⟩
  · obtain ⟨avail, -, -, rfl⟩ := class_ok h
    exact runChain_repeat_class vs _ rfl
  · obtain ⟨avail, -, -, rfl⟩ := attr_ok h
    exact runChain_repeat_attr vs _ rfl
  · obtain ⟨avail, -, -, rfl⟩ := pseudoClass_ok h
    exact runChain_repeat_pseudoClass vs _ rfl

/-- Witness for C7: after `id('main')` then `class('container')`, the repeats
`class('editable')`, `class('x')` succeed and append their fragments in
order. -/
theorem repeatable_calls_never_fail_witness :
    (runChain ((cssSelectorBuilder.id "main").«class» "container").1
        (["editable", "x"].map FragCall.«class»)).map fragmentsOf
      = .ok (fragmentsOf ((cssSelectorBuilder.id "main").«class» "container").1
          ++ ["editable", "x"].map fun w => (SelKind.«class», "." ++ w)) :=
  (repeatable_calls_never_fail (cssSelectorBuilder.id "main") "container" _).1 rfl
    ["editable", "x"]

/-! ## Claim C8 -/

theorem hasType_false_countType {b : CssSelectorBuilder} {k : SelKind}
    (h : b.hasType k = false) : countType b k = 0 := by
  rw [countType, List.countP_eq_zero]
  rw [CssSelectorBuilder.hasType, List.any_eq_false] at h
  exact h

theorem entries_countP (b : CssSelectorBuilder) (c : FragCall) (k : SelKind) :
    List.countP (fun e => e.typeField = some k) (c.entries b)
      = if c.kind = k then 1 else 0 := by
  cases c <;> cases k <;>
    simp [FragCall.entries, FragCall.kind, Entry.typeField, List.countP_cons,
      List.countP_nil]

theorem step_countType {b b' : CssSelectorBuilder} {c : FragCall}
    (h : step b c = .ok b') (k : SelKind) :
    countType b' k = countType b k + (if c.kind = k then 1 else 0) := by
  rw [countType, step_selectors h, List.countP_append, ← countType, entries_countP]

theorem step_ok_singleton_not_hasType {b b' : CssSelectorBuilder} {c : FragCall}
    (h : step b c = .ok b') (hk : c.kind.isSingleton = true) :
    b.hasType c.kind = false := by
  rw [step_ok_iff] at h
  cases c with
  | element v => exact (element_ok h).1
  | id v => exact (id_ok h).1
  | pseudoElement v => exact (pseudoElement_ok h).1
  | «class» v => simp [FragCall.kind, SelKind.isSingleton] at hk
  | attr v => simp [FragCall.kind, SelKind.isSingleton] at hk
  | pseudoClass v => simp [FragCall.kind, SelKind.isSingleton] at hk

theorem step_countType_le {b b' : CssSelectorBuilder} {c : FragCall} {k : SelKind}
    (h : step b c = .ok b') (hk : k.isSingleton = true)
    (hb : countType b k ≤ 1) : countType b' k ≤ 1 := by
  rw [step_countType h k]
  by_cases hck : c.kind = k
  · rw [if_pos hck]
    subst hck
    rw [hasType_false_countType (step_ok_singleton_not_hasType h hk)]
  · rw [if_neg hck]
    simpa using hb

/-- C8: every builder reachable through the public API without an error being
raised contains at most one `element` fragment, at most one `id` fragment and
at most one `pseudoElement` fragment. -/
theorem singleton_fragments_at_most_once :
    ∀ b : CssSelectorBuilder, Reachable b →
      countType b .element ≤ 1 ∧ countType b .id ≤ 1 ∧
        countType b .pseudoElement ≤ 1 := by
  intro b hb
  induction hb with
  | seed c =>
      have hlen : (seedBuilder c).selectors.length = 1 := by cases c <;> rfl
      refine ⟨?_, ?_, ?_⟩ <;>
        · rw [countType]
          exact hlen ▸ List.countP_le_length _
  | call hreach hstep ih =>
      obtain ⟨h1, h2, h3⟩ := ih
      exact ⟨step_countType_le hstep rfl h1, step_countType_le hstep rfl h2,
        step_countType_le hstep rfl h3⟩
  | comb c ha hb iha ihb =>
      refine ⟨?_, ?_, ?_⟩ <;>
        simp [countType, cssSelectorBuilder.combine, CssSelectorBuilder.make,
          List.countP_cons, List.countP_nil, Entry.typeField]

/-- Witness for C8: the singleton bound at the reachable builder seeded by
`element('a')`. -/
theorem singleton_fragments_at_most_once_witness :
    countType (seedBuilder (.element "a")) .element ≤ 1 ∧
    countType (seedBuilder (.element "a")) .id ≤ 1 ∧
    countType (seedBuilder (.element "a")) .pseudoElement ≤ 1 :=
  singleton_fragments_at_most_once _ (Reachable.seed (.element "a"))

/-! ## Claim C9 -/

/-- C9 (amended): the `cssSelectorBuilder` facade object exposes exactly the
seven constructing entry points `element`, `id`, `class`, `attr`,
`pseudoClass`, `pseudoElement`, `combine` (the attribute entry point is named
`attr`, not `attribute`), each returning a new builder seeded as in the
source, and every builder exposes `stringify()`. -/
theorem facade_surface :
    cssSelectorBuilderKeys
      = ["element", "id", "class", "attr", "pseudoClass", "pseudoElement", "combine"] ∧
    (∀ v : String, cssSelectorBuilder.element v = .make (.frag .element v) ∧
      cssSelectorBuilder.id v = .make (.frag .id ("#" ++ v)) ∧
      cssSelectorBuilder.«class» v = .make (.frag .«class» ("." ++ v)) ∧
      cssSelectorBuilder.attr v = .make (.frag .attr ("[" ++ v ++ "]")) ∧
      cssSelectorBuilder.pseudoClass v = .make (.frag .pseudoClass (":" ++ v)) ∧
      cssSelectorBuilder.pseudoElement v = .make (.frag .pseudoElement ("::" ++ v))) ∧
    (∀ b : CssSelectorBuilder, b.stringify = joinAll (b.selectors.map Entry.text)) :=
  ⟨rfl, fun _ => ⟨rfl, rfl, rfl, rfl, rfl, rfl⟩, fun _ => rfl⟩

/-- Counterexample to C9 as stated: the facade exposes no entry point named
`attribute` — the attribute entry point is named `attr`. -/
theorem facade_surface_counterexample :
    cssSelectorBuilderKeys.contains "attribute" = false := by decide
